import Mathlib

/-!
Shallow embedding of the `pkt-line` Git wire-protocol library
(files `token.go`, `receiveresp.go`, `uploadresp.go`).

Byte strings are modelled as `List Nat` (one entry per byte).  Go `panic`
sites are modelled by `Option` results (`none` = panic).  Go errors are an
explicit sum type `PktError`; the `%#v`-formatted payload of the
"unexpected packet" messages is abstracted, all other error messages are
carried byte-for-byte.
-/

namespace PktLine

/-- Bytes of an ASCII string literal. -/
def strBytes (s : String) : List Nat := s.toList.map Char.toNat

/-- Errors surfaced through `Err()` of the scanner / parsers.
`syntaxError` is `SyntaxError`, `remoteError` is an `ErrorPacket`
reported by the peer, `numError` is the `strconv.ParseUint` error
returned by the split function on a non-hexadecimal length header. -/
inductive PktError
  | syntaxError (msg : List Nat)
  | remoteError (msg : List Nat)
  | numError (header : List Nat)
deriving DecidableEq, Repr

/-- `true` iff an `Option PktError` holds a `SyntaxError`. -/
def isSyntaxErr : Option PktError → Bool
  | some (.syntaxError _) => true
  | _ => false

/-- The packet variants produced by `PacketScanner.Scan`
(`FlushPacket`, `DelimPacket`, `BytesPacket`, `PackFileIndicatorPacket`,
`PackFilePacket`).  `ErrorPacket` is never returned as a current packet:
the scanner stores it in its error field instead. -/
inductive Packet
  | flush
  | delim
  | bytes (content : List Nat)
  | packFileIndicator
  | packFile (content : List Nat)
deriving DecidableEq, Repr

/-- Hexadecimal digit characters.  `hexVal` is the value `strconv.ParseUint`
assigns to one character (upper or lower case accepted). -/
def hexVal (c : Nat) : Option Nat :=
  if 48 ≤ c ∧ c ≤ 57 then some (c - 48)
  else if 97 ≤ c ∧ c ≤ 102 then some (c - 87)
  else if 65 ≤ c ∧ c ≤ 70 then some (c - 55)
  else none

/-- `strconv.ParseUint(string(data[:4]), 16, 32)`: exactly four characters,
each a hexadecimal digit (a four-digit value is below 2^32, so the bit-size
bound never fires). -/
def parseHex4 (l : List Nat) : Option Nat :=
  match l with
  | [a, b, c, d] =>
    match hexVal a, hexVal b, hexVal c, hexVal d with
    | some x, some y, some z, some w => some (x * 4096 + y * 256 + z * 16 + w)
    | _, _, _, _ => none
  | _ => none

/-- Fold a digit string back into its value (used to state what a header
"encodes"). -/
def hexValL (l : List Nat) : Option Nat :=
  l.foldl (fun acc c =>
    match acc, hexVal c with
    | some a, some v => some (a * 16 + v)
    | _, _ => none) (some 0)

/-- Lower-case hexadecimal digit character of `d < 16` (Go `%x`). -/
def hexDigitL (d : Nat) : Nat := if d < 10 then 48 + d else 87 + d

/-- Upper-case hexadecimal digit character of `d < 16` (Go `%X`). -/
def hexDigitU (d : Nat) : Nat := if d < 10 then 48 + d else 55 + d

/-- Digit characters of `n` in base 16, most significant first, with fuel
(one fuel unit per digit; fuel 8 covers every `n < 16^8`). -/
def hexDigitsLFuel : Nat → Nat → List Nat
  | 0, _ => []
  | f + 1, n =>
    if n < 16 then [hexDigitL n]
    else hexDigitsLFuel f (n / 16) ++ [hexDigitL (n % 16)]

def hexDigitsUFuel : Nat → Nat → List Nat
  | 0, _ => []
  | f + 1, n =>
    if n < 16 then [hexDigitU n]
    else hexDigitsUFuel f (n / 16) ++ [hexDigitU (n % 16)]

/-- Go `%x` of `n` (minimal digits, lower case; faithful for `n < 16^8`,
which covers every value the encoders can produce — their length checks
bound the header value by `0x10003`). -/
def hexDigitsL (n : Nat) : List Nat := hexDigitsLFuel 8 n

/-- Go `%X` of `n` (minimal digits, upper case; faithful for `n < 16^8`). -/
def hexDigitsU (n : Nat) : List Nat := hexDigitsUFuel 8 n

/-- Go `%04x` / `%04X` padding: left-pad with `'0'` to a MINIMUM width of
four; longer digit strings are emitted in full. -/
def pad4 (l : List Nat) : List Nat := List.replicate (4 - l.length) 48 ++ l

/-- The canonical four-digit lower-case header of a value `n < 0x10000`
(used to build well-formed input streams in theorem statements). -/
def hex4L (n : Nat) : List Nat :=
  [hexDigitL (n / 4096 % 16), hexDigitL (n / 256 % 16),
   hexDigitL (n / 16 % 16), hexDigitL (n % 16)]

/-! ### Packet encoders (`token.go`) -/

/-- `FlushPacket.EncodeToPktLine`. -/
def encodeFlushPacket : List Nat := strBytes "0000"

/-- `DelimPacket.EncodeToPktLine`. -/
def encodeDelimPacket : List Nat := strBytes "0001"

/-- `BytesPacket.EncodeToPktLine`; `none` models the
`panic("content too large")` taken when the content exceeds `0xFFFF-4`. -/
def encodeBytesPacket (b : List Nat) : Option (List Nat) :=
  if 0xFFFF - 4 < b.length then none
  else some (pad4 (hexDigitsL (b.length + 4)) ++ b)

/-- `ErrorPacket.EncodeToPktLine`; the length check is against the size of
`"ERR " + e` itself, while the emitted header holds that size plus four,
formatted with `%04X`. -/
def encodeErrorPacket (m : List Nat) : Option (List Nat) :=
  let bs := strBytes "ERR " ++ m
  if 0xFFFF < bs.length then none
  else some (pad4 (hexDigitsU (bs.length + 4)) ++ bs)

/-- `PackFileIndicatorPacket.EncodeToPktLine`. -/
def encodePackFileIndicatorPacket : List Nat := strBytes "PACK"

/-- `PackFilePacket.EncodeToPktLine`. -/
def encodePackFilePacket (p : List Nat) : List Nat := p

/-! ### The packet scanner (`PacketScanner`) -/

/-- Result of one call of the bufio split function, with the whole
remaining input available and `atEOF = true`:
`tok adv t` delivers token `t` consuming `adv` bytes, `done` is
`(0, nil, nil)` at EOF (the scanner stops cleanly, dropping any leftover
bytes), `fail e` is a returned error. -/
inductive SplitRes
  | tok (adv : Nat) (t : List Nat)
  | done
  | fail (e : PktError)
deriving DecidableEq, Repr

/-- `PacketScanner.packetSplitFunc`. -/
def packetSplitFunc (packFileMode : Bool) (data : List Nat) : SplitRes :=
  if packFileMode then .tok data.length data
  else if data.length < 4 then .done
  else if (strBytes "PACK").isPrefixOf data then .tok 4 (data.take 4)
  else
    match parseHex4 (data.take 4) with
    | none => .fail (.numError (data.take 4))
    | some sz =>
      if sz = 0 ∨ sz = 1 then .tok 4 (data.take 4)
      else if data.length < sz then .done
      else .tok sz (data.take sz)

/-- Mutable state of a `PacketScanner`: its error field, the pack-file
mode flag, and the unconsumed input bytes. -/
structure ScannerState where
  err : Option PktError
  packFileMode : Bool
  data : List Nat
deriving DecidableEq, Repr

/-- Full trace of repeatedly calling `PacketScanner.Scan` until it
returns `false`:
`packets` are the successive current packets of the `true` calls;
`tokens` records every token the split function delivered to `Scan`,
paired with the pack-file mode in force at delivery;
`err` is the scanner's error field when `Scan` first returns `false`;
`oob` is set when the value of `bytes.Equal(bs[4:8], "ERR ")` depends on
memory beyond the end of the delivered token: this happens exactly when
`bs` is shorter than 8 bytes and `bs[4:]` (empty for lengths 2 and 3) is
a prefix of `"ERR "`; the pure model stops there.  When `bs` is shorter
than 8 bytes but `bs[4:]` already differs from the corresponding prefix
of `"ERR "`, the comparison is `false` whatever the out-of-token bytes
hold, and `Scan` deterministically produces `BytesPacket(bs[4:])`. -/
structure RunResult where
  packets : List Packet
  tokens : List (Bool × List Nat)
  err : Option PktError
  oob : Bool
deriving DecidableEq, Repr

/-- What one `Scan` call does with a delivered token: emit a packet (and
possibly switch to pack-file mode for subsequent reads), stop cleanly
(the empty pack-mode read at EOF), stop with an error, or stop because a
slice expression's value depends on memory beyond the token. -/
inductive ScanAct
  | emit (p : Packet) (newMode : Bool)
  | stopClean
  | stopErr (e : PktError)
  | stopOob
deriving DecidableEq, Repr

/-- The token classification chain of `PacketScanner.Scan`. -/
def scanClassify (packFileMode : Bool) (t : List Nat) : ScanAct :=
  if packFileMode then
    if t.length = 0 then .stopClean else .emit (.packFile t) true
  else if t = strBytes "0000" then .emit .flush false
  else if t = strBytes "0001" then .emit .delim false
  else if t = strBytes "PACK" then .emit .packFileIndicator true
  else if t.length = 4 then
    .stopErr (.syntaxError (strBytes "unknown special packet: " ++ t))
  else if t.length < 8 ∧ (t.drop 4).isPrefixOf (strBytes "ERR ") then .stopOob
  else if (t.drop 4).take 4 = strBytes "ERR " then .stopErr (.remoteError (t.drop 8))
  else .emit (.bytes (t.drop 4)) false

/-- One iteration of `PacketScanner.Scan` per fuel unit; every delivered
token consumes at least one input byte, so fuel `data.length + 1`
reaches the end of the stream. -/
def runAux : Nat → ScannerState → RunResult
  | 0, s => ⟨[], [], s.err, false⟩
  | f + 1, s =>
    if s.err.isSome then ⟨[], [], s.err, false⟩
    else
      match packetSplitFunc s.packFileMode s.data with
      | .done => ⟨[], [], none, false⟩
      | .fail e => ⟨[], [], some e, false⟩
      | .tok adv t =>
        match scanClassify s.packFileMode t with
        | .emit p m2 =>
          let r := runAux f ⟨none, m2, s.data.drop adv⟩
          ⟨p :: r.packets, (s.packFileMode, t) :: r.tokens, r.err, r.oob⟩
        | .stopClean => ⟨[], [(s.packFileMode, t)], none, false⟩
        | .stopErr e => ⟨[], [(s.packFileMode, t)], some e, false⟩
        | .stopOob => ⟨[], [(s.packFileMode, t)], none, true⟩

/-- Run a fresh `PacketScanner` over a complete input stream. -/
def tokenize (input : List Nat) : RunResult :=
  runAux (input.length + 1) ⟨none, false, input⟩

/-! ### Shared string helpers (`strings.TrimSuffix`, `strings.SplitN`) -/

/-- `strings.TrimSuffix(s, "\n")`: drop one trailing newline if present. -/
def trimNl (l : List Nat) : List Nat :=
  if l.getLast? = some 10 then l.dropLast else l

/-- Split off everything before the first space, if any. -/
def splitOnceSpace : List Nat → Option (List Nat × List Nat)
  | [] => none
  | c :: rest =>
    if c = 32 then some ([], rest)
    else
      match splitOnceSpace rest with
      | none => none
      | some (a, b) => some (c :: a, b)

/-- `strings.SplitN(s, " ", n)` for `n ≥ 1` (at most `n` fields, the last
field keeping the remaining separators); `n = 0` yields no fields, as in Go. -/
def splitNSpace : Nat → List Nat → List (List Nat)
  | 0, _ => []
  | 1, s => [s]
  | n + 2, s =>
    match splitOnceSpace s with
    | none => [s]
    | some (a, b) => a :: splitNSpace (n + 1) b

/-! ### The protocol v1 receive-pack response parser (`receiveresp.go`) -/

/-- `ReceiveResponseState`. -/
inductive RState
  | begin
  | scanResult
  | end'
deriving DecidableEq, Repr

/-- `ReceiveResponseChunk` (Go zero values: empty string / `false`). -/
structure ReceiveResponseChunk where
  UnpackStatus : List Nat := []
  RefUpdateStatus : List Nat := []
  RefName : List Nat := []
  RefUpdateFailMessage : List Nat := []
  EndOfResponse : Bool := false
deriving DecidableEq, Repr

/-- `ReceiveResponseChunk.EncodeToPktLine`; `none` models the panics
(`"impossible chunk"`, or `BytesPacket`'s `"content too large"`). -/
def encodeReceiveResponseChunk (c : ReceiveResponseChunk) : Option (List Nat) :=
  if c.UnpackStatus ≠ [] then
    encodeBytesPacket (strBytes "unpack " ++ c.UnpackStatus ++ [10])
  else if c.RefUpdateStatus ≠ [] then
    if c.RefUpdateFailMessage = [] then
      encodeBytesPacket (c.RefUpdateStatus ++ [32] ++ c.RefName ++ [10])
    else
      encodeBytesPacket
        (c.RefUpdateStatus ++ [32] ++ c.RefName ++ [32] ++ c.RefUpdateFailMessage ++ [10])
  else if c.EndOfResponse then some encodeFlushPacket
  else none

/-- Outcome of the state-dependent part of one `ReceiveResponse.Scan` call
on a freshly scanned packet. -/
inductive RStepRes
  | chunk (c : ReceiveResponseChunk) (st : RState)
  | fatal (e : PktError)
deriving DecidableEq, Repr

/-- The `switch r.state` body of `ReceiveResponse.Scan`.  The Go
`strings.SplitN(s, " ", 2)[1]` index is total here via `getD`; the prefix
checks guarantee at least two fields, so the default is never used.
The `%#v`-rendered text of the "unexpected packet" messages is abstracted
to the plain message head. -/
def receiveStep (st : RState) (p : Packet) : RStepRes :=
  match st with
  | .begin =>
    match p with
    | .bytes bp =>
      let s := trimNl bp
      if (strBytes "unpack ").isPrefixOf s then
        .chunk { UnpackStatus := (splitNSpace 2 s).getD 1 [] } .scanResult
      else .fatal (.syntaxError (strBytes "unexpected packet"))
    | _ => .fatal (.syntaxError (strBytes "unexpected packet"))
  | .scanResult =>
    match p with
    | .flush => .chunk { EndOfResponse := true } .end'
    | .bytes bp =>
      let s := trimNl bp
      if (strBytes "ok ").isPrefixOf s then
        .chunk { RefUpdateStatus := (splitNSpace 2 s).getD 0 [],
                 RefName := (splitNSpace 2 s).getD 1 [] } .scanResult
      else if (strBytes "ng ").isPrefixOf s then
        if (splitNSpace 3 s).length ≠ 3 then
          .fatal (.syntaxError (strBytes "cannot split into three: " ++ s))
        else
          .chunk { RefUpdateStatus := (splitNSpace 3 s).getD 0 [],
                   RefName := (splitNSpace 3 s).getD 1 [],
                   RefUpdateFailMessage := (splitNSpace 3 s).getD 2 [] } .scanResult
      else .fatal (.syntaxError (strBytes "unexpected packet"))
    | _ => .fatal (.syntaxError (strBytes "unexpected packet"))
  | .end' => .fatal (.syntaxError (strBytes "impossible state"))

/-- End-of-stream handling of `ReceiveResponse.Scan`: the scanner's error
is copied into `r.err`; a clean end in any state other than `Begin`
becomes `SyntaxError("early EOF")`. -/
def receiveEOFErr (st : RState) (endErr : Option PktError) : Option PktError :=
  match endErr with
  | some e => some e
  | none => if st = RState.begin then none else some (.syntaxError (strBytes "early EOF"))

/-- Drive `ReceiveResponse.Scan` over a packet sequence (`endErr` is the
scanner's error once its packets are exhausted); returns the produced
chunks and the parser's final `Err()` value. -/
def receiveRun : RState → List Packet → Option PktError →
    List ReceiveResponseChunk × Option PktError
  | st, ps, endErr =>
    if st = RState.end' then ([], none)
    else
      match ps with
      | [] => ([], receiveEOFErr st endErr)
      | p :: rest =>
        match receiveStep st p with
        | .chunk c st' =>
          let r := receiveRun st' rest endErr
          (c :: r.1, r.2)
        | .fatal e => ([], some e)

/-- A whole `ReceiveResponse` session over a raw byte stream. -/
def receiveRunBytes (input : List Nat) : List ReceiveResponseChunk × Option PktError :=
  let r := tokenize input
  receiveRun .begin r.packets r.err

/-! ### The protocol v2 request parser (second part of `receiveresp.go`) -/

/-- `RequestState`. -/
inductive ReqState
  | begin
  | scanCapabilities
  | scanArguments
  | end'
deriving DecidableEq, Repr

/-- `RequestChunk`. -/
structure RequestChunk where
  Command : List Nat := []
  Capability : List Nat := []
  EndCapability : Bool := false
  Argument : List Nat := []
  EndArgument : Bool := false
  EndRequest : Bool := false
deriving DecidableEq, Repr

/-- `RequestChunk.EncodeToPktLine`; `none` models the panics. -/
def encodeRequestChunk (c : RequestChunk) : Option (List Nat) :=
  if c.Command ≠ [] then
    encodeBytesPacket (strBytes "command=" ++ c.Command ++ [10])
  else if c.Capability ≠ [] then encodeBytesPacket (c.Capability ++ [10])
  else if c.EndCapability then some encodeDelimPacket
  else if c.Argument ≠ [] then encodeBytesPacket c.Argument
  else if c.EndArgument || c.EndRequest then some encodeFlushPacket
  else none

/-- Outcome of the state-dependent part of one `Request.Scan` call. -/
inductive ReqStepRes
  | chunk (c : RequestChunk) (st : ReqState)
  | fatal (e : PktError)
deriving DecidableEq, Repr

/-- The `switch r.state` body of `Request.Scan`.  The `command=` prefix is
tested on the raw packet; the prefix and one trailing newline are then
stripped from the command name. -/
def requestStep (st : ReqState) (p : Packet) : ReqStepRes :=
  match st with
  | .begin =>
    match p with
    | .flush => .chunk { EndRequest := true } .end'
    | .bytes bp =>
      if (strBytes "command=").isPrefixOf bp then
        .chunk { Command := trimNl (bp.drop (strBytes "command=").length) } .scanCapabilities
      else .fatal (.syntaxError (strBytes "unexpected packet"))
    | _ => .fatal (.syntaxError (strBytes "unexpected packet"))
  | .scanCapabilities =>
    match p with
    | .delim => .chunk { EndCapability := true } .scanArguments
    | .bytes bp => .chunk { Capability := trimNl bp } .scanCapabilities
    | _ => .fatal (.syntaxError (strBytes "unexpected packet"))
  | .scanArguments =>
    match p with
    | .flush => .chunk { EndArgument := true } .begin
    | .bytes bp => .chunk { Argument := bp } .scanArguments
    | _ => .fatal (.syntaxError (strBytes "unexpected packet"))
  | .end' => .fatal (.syntaxError (strBytes "impossible state"))

/-- End-of-stream handling of `Request.Scan` (same shape as the
receive-pack response parser). -/
def requestEOFErr (st : ReqState) (endErr : Option PktError) : Option PktError :=
  match endErr with
  | some e => some e
  | none => if st = ReqState.begin then none else some (.syntaxError (strBytes "early EOF"))

/-- Drive `Request.Scan` over a packet sequence. -/
def requestRun : ReqState → List Packet → Option PktError →
    List RequestChunk × Option PktError
  | st, ps, endErr =>
    if st = ReqState.end' then ([], none)
    else
      match ps with
      | [] => ([], requestEOFErr st endErr)
      | p :: rest =>
        match requestStep st p with
        | .chunk c st' =>
          let r := requestRun st' rest endErr
          (c :: r.1, r.2)
        | .fatal e => ([], some e)

/-! ### The protocol v1 upload-pack response parser (`uploadresp.go`) -/

/-- `UploadResponseState`. -/
inductive UState
  | begin
  | scanShallows
  | scanUnshallows
  | beginAck
  | scanAck
  | scanPacks
  | end'
deriving DecidableEq, Repr

/-- `UploadResponseChunk`.  `PackRepo` (type `any` in Go) is never
assigned by the parser, so it is modelled as an always-`none` option. -/
structure UploadResponseChunk where
  ShallowObjectID : List Nat := []
  UnshallowObjectID : List Nat := []
  EndOfShallows : Bool := false
  AckObjectID : List Nat := []
  AckDetail : List Nat := []
  Nak : Bool := false
  PackStream : List Nat := []
  PackRepo : Option Unit := none
  EndOfRequest : Bool := false
deriving DecidableEq, Repr

/-- `UploadResponseChunk.EncodeToPktLine`; `none` models the panics. -/
def encodeUploadResponseChunk (c : UploadResponseChunk) : Option (List Nat) :=
  if c.ShallowObjectID ≠ [] then
    encodeBytesPacket (strBytes "shallow " ++ c.ShallowObjectID ++ [10])
  else if c.UnshallowObjectID ≠ [] then
    encodeBytesPacket (strBytes "unshallow " ++ c.UnshallowObjectID ++ [10])
  else if c.EndOfShallows then some encodeFlushPacket
  else if c.AckObjectID ≠ [] then
    if c.AckDetail ≠ [] then
      encodeBytesPacket (strBytes "ACK " ++ c.AckObjectID ++ [32] ++ c.AckDetail ++ [10])
    else encodeBytesPacket (strBytes "ACK " ++ c.AckObjectID ++ [10])
  else if c.Nak then encodeBytesPacket (strBytes "NAK\x0a")
  else if c.PackStream ≠ [] then encodeBytesPacket c.PackStream
  else if c.EndOfRequest then some encodeFlushPacket
  else none

/-- Outcome of the state-dependent part of one `UploadResponse.Scan` call:
`chunk` returns `true` with a fresh current chunk, `skip` returns `true`
WITHOUT touching the current chunk (the `PackFileIndicatorPacket` case),
`fatal` sets the parser error and returns `false`. -/
inductive UStepRes
  | chunk (c : UploadResponseChunk) (st : UState)
  | skip (st : UState)
  | fatal (e : PktError)
deriving DecidableEq, Repr

/-- The pack section (`case UploadResponseScanPacks`): flush terminates,
bytes and raw pack chunks stream on, the pack-file indicator advances the
state but produces no chunk, anything else (a delim packet) is fatal. -/
def uploadS4 (p : Packet) : UStepRes :=
  match p with
  | .flush => .chunk { EndOfRequest := true } .end'
  | .bytes bp => .chunk { PackStream := bp } .scanPacks
  | .packFile bp => .chunk { PackStream := bp } .scanPacks
  | .packFileIndicator => .skip .scanPacks
  | _ => .fatal (.syntaxError (strBytes "unexpected packet"))

/-- The acknowledgement section
(`case UploadResponseBeginAcknowledgements, UploadResponseScanAcknowledgements`);
an unrecognized packet is fatal only when the parser is still in its very
first state (`entry` is the state the `switch` dispatched on, unchanged
along the fallthrough chain), otherwise it falls through to the pack
section. -/
def uploadS3 (entry : UState) (p : Packet) : UStepRes :=
  match p with
  | .bytes bp =>
    if (strBytes "ACK ").isPrefixOf bp then
      if (splitNSpace 3 (trimNl bp)).length < 2 then
        .fatal (.syntaxError (strBytes "cannot split ACK: " ++ bp))
      else
        .chunk { AckObjectID := (splitNSpace 3 (trimNl bp)).getD 1 [],
                 AckDetail :=
                   if (splitNSpace 3 (trimNl bp)).length = 3 then
                     (splitNSpace 3 (trimNl bp)).getD 2 []
                   else [] } .scanAck
    else if bp = strBytes "NAK\x0a" then .chunk { Nak := true } .scanPacks
    else if entry = UState.begin then .fatal (.syntaxError (strBytes "unexpected packet"))
    else uploadS4 p
  | _ =>
    if entry = UState.begin then .fatal (.syntaxError (strBytes "unexpected packet"))
    else uploadS4 p

/-- The unshallow section (`case UploadResponseScanUnshallows`); a flush
here ends the shallow sections; otherwise falls through to the
acknowledgement section. -/
def uploadS2 (entry : UState) (p : Packet) : UStepRes :=
  match p with
  | .bytes bp =>
    if (strBytes "unshallow ").isPrefixOf bp then
      if (splitNSpace 2 (trimNl bp)).length < 2 then
        .fatal (.syntaxError (strBytes "cannot split unshallow: " ++ bp))
      else
        .chunk { UnshallowObjectID := (splitNSpace 2 (trimNl bp)).getD 1 [] } .scanUnshallows
    else uploadS3 entry p
  | .flush => .chunk { EndOfShallows := true } .beginAck
  | _ => uploadS3 entry p

/-- The shallow section (`case UploadResponseBegin, UploadResponseScanShallows`);
falls through to the unshallow section. -/
def uploadS1 (entry : UState) (p : Packet) : UStepRes :=
  match p with
  | .bytes bp =>
    if (strBytes "shallow ").isPrefixOf bp then
      if (splitNSpace 2 (trimNl bp)).length < 2 then
        .fatal (.syntaxError (strBytes "cannot split shallow: " ++ bp))
      else
        .chunk { ShallowObjectID := (splitNSpace 2 (trimNl bp)).getD 1 [] } .scanShallows
    else uploadS2 entry p
  | _ => uploadS2 entry p

/-- The `switch r.state` dispatch of `UploadResponse.Scan`, entering the
fallthrough chain at the section owned by the current state. -/
def uploadStep (st : UState) (p : Packet) : UStepRes :=
  match st with
  | .begin => uploadS1 .begin p
  | .scanShallows => uploadS1 .scanShallows p
  | .scanUnshallows => uploadS2 .scanUnshallows p
  | .beginAck => uploadS3 .beginAck p
  | .scanAck => uploadS3 .scanAck p
  | .scanPacks => uploadS4 p
  | .end' => .fatal (.syntaxError (strBytes "impossible state"))

/-- End-of-stream handling of `UploadResponse.Scan`: if the scanner
stopped WITHOUT an error, any state other than
`BeginAcknowledgements`/`ScanPacks` raises `SyntaxError("early EOF")`;
if the scanner stopped WITH an error, `r.err` is left untouched — the
scanner's error is never copied into the parser. -/
def uploadEOFErr (st : UState) (endErr : Option PktError) : Option PktError :=
  match endErr with
  | some _ => none
  | none =>
    if st = UState.beginAck ∨ st = UState.scanPacks then none
    else some (.syntaxError (strBytes "early EOF"))

/-- Drive `UploadResponse.Scan` over a packet sequence; `skip` steps
contribute no chunk. -/
def uploadRun : UState → List Packet → Option PktError →
    List UploadResponseChunk × Option PktError
  | st, ps, endErr =>
    if st = UState.end' then ([], none)
    else
      match ps with
      | [] => ([], uploadEOFErr st endErr)
      | p :: rest =>
        match uploadStep st p with
        | .chunk c st' =>
          let r := uploadRun st' rest endErr
          (c :: r.1, r.2)
        | .skip st' => uploadRun st' rest endErr
        | .fatal e => ([], some e)

/-- A whole `UploadResponse` session over a raw byte stream. -/
def uploadRunBytes (input : List Nat) : List UploadResponseChunk × Option PktError :=
  let r := tokenize input
  uploadRun .begin r.packets r.err

/-- The full mutable state of an `UploadResponse` (`state`, `err`,
`curr`; `curr = none` is Go's initial nil pointer). -/
structure UploadResponseM where
  state : UState
  err : Option PktError
  curr : Option UploadResponseChunk
deriving DecidableEq, Repr

/-- A single `UploadResponse.Scan` call against a packet source holding
packets `ps` followed by a scanner stop with error `endErr`; returns the
boolean result, the parser state afterwards, and the unread packets. -/
def uploadScanOnce (r : UploadResponseM) (ps : List Packet) (endErr : Option PktError) :
    Bool × UploadResponseM × List Packet :=
  if r.err.isSome ∨ r.state = UState.end' then (false, r, ps)
  else
    match ps with
    | [] => (false, { r with err := uploadEOFErr r.state endErr }, [])
    | p :: rest =>
      match uploadStep r.state p with
      | .chunk c st' => (true, { r with state := st', curr := some c }, rest)
      | .skip st' => (true, { r with state := st' }, rest)
      | .fatal e => (false, { r with err := some e }, rest)
/-! ### Formalized claim statements (used to refute claims as stated) -/

/-- The claim that a four-byte non-special framed token — including four
bytes that are not valid hexadecimal — makes the scanner stop with a
`SyntaxError`, stated at one input stream. -/
def c5ClaimAt (input : List Nat) : Prop :=
  (tokenize input).packets = [] ∧ isSyntaxErr (tokenize input).err = true

/-- The claim that `ErrorPacket(m).EncodeToPktLine` emits exactly four
(uppercase hexadecimal) digits encoding `len("ERR " + m) + 4` followed by
`"ERR " + m`, aborting exactly when `len("ERR " + m) > 65535`, stated at
one message. -/
def c3ClaimAt (m : List Nat) : Prop :=
  (encodeErrorPacket m = none ↔ 65535 < (strBytes "ERR " ++ m).length) ∧
  ∀ out, encodeErrorPacket m = some out →
    ∃ hdr, out = hdr ++ (strBytes "ERR " ++ m) ∧ hdr.length = 4 ∧
      hexValL hdr = some ((strBytes "ERR " ++ m).length + 4)

/-- The claim that every token delivered to `Scan` in framed mode with
length different from 4 has length at least 8, stated at one input
stream. -/
def c10ClaimAt (input : List Nat) : Prop :=
  ∀ mt ∈ (tokenize input).tokens, mt.1 = false → mt.2.length ≠ 4 → 8 ≤ mt.2.length

/-! ### Sanity checks on concrete streams -/

example : tokenize (strBytes "0006ab") =
    ⟨[.bytes (strBytes "ab")], [(false, strBytes "0006ab")], none, false⟩ := by
  decide

example : tokenize (strBytes "0000") =
    ⟨[.flush], [(false, strBytes "0000")], none, false⟩ := by decide

example : (tokenize (strBytes "0004")).err =
    some (.syntaxError (strBytes "unknown special packet: 0004")) := by decide

example : (tokenize (strBytes "zzzz")).err = some (.numError (strBytes "zzzz")) := by
  decide

example : (tokenize (strBytes "0002")).oob = true := by decide

example : tokenize (strBytes "0014ERR bad request\x0a") =
    ⟨[], [(false, strBytes "0014ERR bad request\x0a")],
     some (.remoteError (strBytes "bad request\x0a")), false⟩ := by decide

example : (tokenize (strBytes "PACKxyz")).packets =
    [.packFileIndicator, .packFile (strBytes "xyz")] := by decide

/-! ### Claim theorems -/


/-! ### Helper lemmas about hexadecimal rendering -/

theorem hexVal_hexDigitU (d : Nat) (h : d < 16) : hexVal (hexDigitU d) = some d := by
  unfold hexVal hexDigitU
  by_cases h10 : d < 10
  · rw [if_pos h10, if_pos (by omega)]
    congr 1
    omega
  · rw [if_neg h10, if_neg (by omega), if_neg (by omega), if_pos (by omega)]
    congr 1
    omega

theorem hexVal_hexDigitL (d : Nat) (h : d < 16) : hexVal (hexDigitL d) = some d := by
  unfold hexVal hexDigitL
  by_cases h10 : d < 10
  · rw [if_pos h10, if_pos (by omega)]
    congr 1
    omega
  · rw [if_neg h10, if_neg (by omega), if_pos (by omega)]
    congr 1
    omega

theorem parseHex4_hex4L (n : Nat) (h : n < 65536) : parseHex4 (hex4L n) = some n := by
  show (match hexVal (hexDigitL (n / 4096 % 16)), hexVal (hexDigitL (n / 256 % 16)),
      hexVal (hexDigitL (n / 16 % 16)), hexVal (hexDigitL (n % 16)) with
    | some x, some y, some z, some w => some (x * 4096 + y * 256 + z * 16 + w)
    | _, _, _, _ => none) = some n
  rw [hexVal_hexDigitL _ (by omega), hexVal_hexDigitL _ (by omega),
    hexVal_hexDigitL _ (by omega), hexVal_hexDigitL _ (by omega)]
  show some _ = some n
  congr 1
  omega

theorem hex4L_length (n : Nat) : (hex4L n).length = 4 := rfl

theorem hex4L_ne_PACK (n : Nat) (h : n < 65536) : hex4L n ≠ strBytes "PACK" := by
  intro heq
  have h1 : parseHex4 (hex4L n) = some n := parseHex4_hex4L n h
  rw [heq] at h1
  have h2 : parseHex4 (strBytes "PACK") = none := by decide
  rw [h2] at h1
  exact Option.noConfusion h1

theorem hexValL_append_digit (l : List Nat) (c : Nat) :
    hexValL (l ++ [c]) =
      match hexValL l, hexVal c with
      | some a, some v => some (a * 16 + v)
      | _, _ => none := by
  unfold hexValL
  rw [List.foldl_append]
  rfl

theorem hexValL_hexDigitsUFuel (f : Nat) :
    ∀ n, n < 16 ^ f → hexValL (hexDigitsUFuel f n) = some n := by
  induction f with
  | zero =>
    intro n hn
    interval_cases n
    decide
  | succ f ih =>
    intro n hn
    unfold hexDigitsUFuel
    by_cases h16 : n < 16
    · rw [if_pos h16]
      show hexValL [hexDigitU n] = some n
      unfold hexValL
      show (match (some 0 : Option Nat), hexVal (hexDigitU n) with
        | some a, some v => some (a * 16 + v)
        | _, _ => none) = some n
      rw [hexVal_hexDigitU n h16]
      show some (0 * 16 + n) = some n
      congr 1
      omega
    · rw [if_neg h16]
      rw [hexValL_append_digit]
      have hdiv : n / 16 < 16 ^ f := by
        rw [Nat.div_lt_iff_lt_mul (by omega)]
        calc n < 16 ^ (f + 1) := hn
          _ = 16 ^ f * 16 := by ring
      rw [ih (n / 16) hdiv, hexVal_hexDigitU (n % 16) (Nat.mod_lt n (by omega))]
      show some (n / 16 * 16 + n % 16) = some n
      congr 1
      omega

theorem hexValL_hexDigitsU (n : Nat) (h : n < 16 ^ 8) :
    hexValL (hexDigitsU n) = some n := by
  unfold hexDigitsU
  exact hexValL_hexDigitsUFuel 8 n h

theorem hexValL_pad4 (l : List Nat) : hexValL (pad4 l) = hexValL l := by
  unfold pad4 hexValL
  rw [List.foldl_append]
  congr 1
  generalize 4 - l.length = k
  induction k with
  | zero => rfl
  | succ k ih =>
    rw [List.replicate_succ, List.foldl_cons]
    exact ih

theorem hexDigitsUFuel_length_le (f : Nat) :
    ∀ n k, 1 ≤ k → n < 16 ^ k → k ≤ f → (hexDigitsUFuel f n).length ≤ k := by
  induction f with
  | zero =>
    intro n k _ _ _
    simp [hexDigitsUFuel]
  | succ f ih =>
    intro n k hk hn hkf
    unfold hexDigitsUFuel
    by_cases h16 : n < 16
    · rw [if_pos h16]
      simpa using hk
    · rw [if_neg h16]
      rw [List.length_append]
      have hk2 : 2 ≤ k := by
        by_contra hlt
        have : k = 1 := by omega
        subst this
        simp at hn
        omega
      have hdiv : n / 16 < 16 ^ (k - 1) := by
        rw [Nat.div_lt_iff_lt_mul (by omega)]
        calc n < 16 ^ k := hn
          _ = 16 ^ (k - 1) * 16 := by
            rw [← Nat.pow_succ]
            congr 1
            omega
      have := ih (n / 16) (k - 1) (by omega) hdiv (by omega)
      simp only [List.length_cons, List.length_nil]
      omega

theorem pad4_length_of_le (l : List Nat) (h : l.length ≤ 4) : (pad4 l).length = 4 := by
  unfold pad4
  rw [List.length_append, List.length_replicate]
  omega

theorem pad4_of_ge (l : List Nat) (h : 4 ≤ l.length) : pad4 l = l := by
  unfold pad4
  have : 4 - l.length = 0 := by omega
  rw [this]
  rfl

theorem hexDigitsUFuel_mem (f : Nat) :
    ∀ n c, c ∈ hexDigitsUFuel f n → (48 ≤ c ∧ c ≤ 57) ∨ (65 ≤ c ∧ c ≤ 70) := by
  induction f with
  | zero =>
    intro n c hc
    simp [hexDigitsUFuel] at hc
  | succ f ih =>
    intro n c hc
    unfold hexDigitsUFuel at hc
    by_cases h16 : n < 16
    · rw [if_pos h16] at hc
      simp only [List.mem_singleton] at hc
      subst hc
      unfold hexDigitU
      by_cases h10 : n < 10
      · rw [if_pos h10]
        left
        omega
      · rw [if_neg h10]
        right
        omega
    · rw [if_neg h16, List.mem_append] at hc
      rcases hc with hc | hc
      · exact ih _ _ hc
      · simp only [List.mem_singleton] at hc
        subst hc
        unfold hexDigitU
        have hmod : n % 16 < 16 := Nat.mod_lt n (by omega)
        by_cases h10 : n % 16 < 10
        · rw [if_pos h10]
          left
          omega
        · rw [if_neg h10]
          right
          omega

theorem pad4_mem (l : List Nat) (c : Nat) (hc : c ∈ pad4 l) : c = 48 ∨ c ∈ l := by
  unfold pad4 at hc
  rw [List.mem_append] at hc
  rcases hc with hc | hc
  · exact Or.inl (List.eq_of_mem_replicate hc)
  · exact Or.inr hc

theorem encodeErrorPacket_some (m : List Nat)
    (h : (strBytes "ERR " ++ m).length ≤ 0xFFFF) :
    encodeErrorPacket m =
      some (pad4 (hexDigitsU ((strBytes "ERR " ++ m).length + 4)) ++
        (strBytes "ERR " ++ m)) := by
  show (if 0xFFFF < (strBytes "ERR " ++ m).length then none
    else some (pad4 (hexDigitsU ((strBytes "ERR " ++ m).length + 4)) ++
      (strBytes "ERR " ++ m))) = _
  rw [if_neg (by omega)]

/-- C3 counterexample.  At a message of 65528 bytes, `len("ERR " + m)` is
65532 ≤ 65535, so the encoder does not abort, but the emitted header is
`%04X` of 65536 = `"10000"` — FIVE digits, not the four the claim
asserts. -/
theorem errorPacket_header_claim_fails_at_65532 :
    ¬ c3ClaimAt (List.replicate 65528 97) := by
  intro hC
  have hlen : (strBytes "ERR " ++ List.replicate 65528 97).length = 65532 := by
    rw [List.length_append, List.length_replicate]
    decide
  have henc := encodeErrorPacket_some (List.replicate 65528 97) (by omega)
  obtain ⟨hdr, heq, h4len, _⟩ := hC.2 _ henc
  have h5 : (pad4 (hexDigitsU ((strBytes "ERR " ++ List.replicate 65528 97).length + 4))).length
      = 5 := by
    rw [hlen]
    decide
  have hlen2 :
      (pad4 (hexDigitsU ((strBytes "ERR " ++ List.replicate 65528 97).length + 4))).length +
        (strBytes "ERR " ++ List.replicate 65528 97).length =
      hdr.length + (strBytes "ERR " ++ List.replicate 65528 97).length := by
    rw [← List.length_append, ← List.length_append, heq]
  omega

/-- C3 amended.  `ErrorPacket(m).EncodeToPktLine` aborts exactly when
`len("ERR " + m) > 65535`; otherwise it emits a header of upper-case
hexadecimal digits zero-padded to a MINIMUM width of four, encoding
`len("ERR " + m) + 4`, followed by `"ERR " + m`.  The header is exactly
four digits when `len("ERR " + m) ≤ 65531`; in the boundary range
65532..65535 nothing is aborted or truncated, but the header is FIVE
digits, not four. -/
theorem errorPacket_encode_amended (m : List Nat) :
    (encodeErrorPacket m = none ↔ 65535 < (strBytes "ERR " ++ m).length) ∧
    ((strBytes "ERR " ++ m).length ≤ 65531 →
      ∃ hdr, encodeErrorPacket m = some (hdr ++ (strBytes "ERR " ++ m)) ∧
        hdr.length = 4 ∧
        hexValL hdr = some ((strBytes "ERR " ++ m).length + 4) ∧
        ∀ c ∈ hdr, (48 ≤ c ∧ c ≤ 57) ∨ (65 ≤ c ∧ c ≤ 70)) ∧
    (65532 ≤ (strBytes "ERR " ++ m).length → (strBytes "ERR " ++ m).length ≤ 65535 →
      ∃ hdr, encodeErrorPacket m = some (hdr ++ (strBytes "ERR " ++ m)) ∧
        hdr.length = 5 ∧
        hexValL hdr = some ((strBytes "ERR " ++ m).length + 4) ∧
        ∀ c ∈ hdr, (48 ≤ c ∧ c ≤ 57) ∨ (65 ≤ c ∧ c ≤ 70)) := by
  refine ⟨?_, ?_, ?_⟩
  · show (if 0xFFFF < (strBytes "ERR " ++ m).length then none
      else some (pad4 (hexDigitsU ((strBytes "ERR " ++ m).length + 4)) ++
        (strBytes "ERR " ++ m))) = none ↔ _
    by_cases hL : 0xFFFF < (strBytes "ERR " ++ m).length
    · rw [if_pos hL]
      simpa using hL
    · rw [if_neg hL]
      simp only [reduceCtorEq, false_iff]
      omega
  · intro hle
    refine ⟨pad4 (hexDigitsU ((strBytes "ERR " ++ m).length + 4)),
      encodeErrorPacket_some m (by omega), ?_, ?_, ?_⟩
    · refine pad4_length_of_le _ ?_
      unfold hexDigitsU
      refine hexDigitsUFuel_length_le _ _ 4 (by omega) ?_ (by omega)
      have h16 : (16 : Nat) ^ 4 = 65536 := by norm_num
      omega
    · rw [hexValL_pad4, hexValL_hexDigitsU _ (by
        have h16 : (16 : Nat) ^ 8 = 4294967296 := by norm_num
        omega)]
    · intro c hc
      rcases pad4_mem _ _ hc with hc | hc
      · left
        omega
      · exact hexDigitsUFuel_mem _ _ _ hc
  · intro h1 h2
    refine ⟨pad4 (hexDigitsU ((strBytes "ERR " ++ m).length + 4)),
      encodeErrorPacket_some m (by omega), ?_, ?_, ?_⟩
    · have hcase : (strBytes "ERR " ++ m).length = 65532 ∨
          (strBytes "ERR " ++ m).length = 65533 ∨
          (strBytes "ERR " ++ m).length = 65534 ∨
          (strBytes "ERR " ++ m).length = 65535 := by omega
      rcases hcase with hc | hc | hc | hc <;> rw [hc] <;> decide
    · rw [hexValL_pad4, hexValL_hexDigitsU _ (by
        have h16 : (16 : Nat) ^ 8 = 4294967296 := by norm_num
        omega)]
    · intro c hc
      rcases pad4_mem _ _ hc with hc | hc
      · left
        omega
      · exact hexDigitsUFuel_mem _ _ _ hc

/-- Witness for the C3 amended theorem: the four-digit branch at the
message `"boom"` and the five-digit branch at a 65528-byte message. -/
theorem errorPacket_encode_amended_witness :
    (∃ hdr, encodeErrorPacket (strBytes "boom") =
        some (hdr ++ (strBytes "ERR " ++ strBytes "boom")) ∧ hdr.length = 4 ∧
        hexValL hdr = some ((strBytes "ERR " ++ strBytes "boom").length + 4) ∧
        ∀ c ∈ hdr, (48 ≤ c ∧ c ≤ 57) ∨ (65 ≤ c ∧ c ≤ 70)) ∧
    (∃ hdr, encodeErrorPacket (List.replicate 65528 97) =
        some (hdr ++ (strBytes "ERR " ++ List.replicate 65528 97)) ∧ hdr.length = 5 ∧
        hexValL hdr = some ((strBytes "ERR " ++ List.replicate 65528 97).length + 4) ∧
        ∀ c ∈ hdr, (48 ≤ c ∧ c ≤ 57) ∨ (65 ≤ c ∧ c ≤ 70)) :=
  ⟨(errorPacket_encode_amended (strBytes "boom")).2.1 (by decide),
   (errorPacket_encode_amended (List.replicate 65528 97)).2.2
     (by rw [List.length_append, List.length_replicate]; decide)
     (by rw [List.length_append, List.length_replicate]; decide)⟩

/-! ### Helper lemmas about prefixes and trimming -/

theorem trimNl_keeps_prefix (pre l : List Nat) (h : pre <+: l)
    (hl : pre.getLast? ≠ some 10) : pre <+: trimNl l := by
  obtain ⟨t, rfl⟩ := h
  unfold trimNl
  by_cases hlast : (pre ++ t).getLast? = some 10
  · rw [if_pos hlast]
    cases t with
    | nil =>
      rw [List.append_nil] at hlast
      exact absurd hlast hl
    | cons x ts =>
      rw [List.dropLast_append_of_ne_nil _ (List.cons_ne_nil x ts)]
      exact ⟨(x :: ts).dropLast, rfl⟩
  · rw [if_neg hlast]
    exact ⟨t, rfl⟩

theorem splitNSpace_ng (t : List Nat) :
    splitNSpace 3 (strBytes "ng " ++ t) = strBytes "ng" :: splitNSpace 2 t := rfl

theorem not_ok_of_ng (s : List Nat) (h : strBytes "ng " <+: s) :
    (strBytes "ok ").isPrefixOf s = false := by
  obtain ⟨t, rfl⟩ := h
  rfl

/-- C6.  In the `ScanResults` state, a `Bytes` packet starting with
`"ng "` is split — after stripping one trailing newline — into at most
three space-separated fields: with fewer than three fields `Scan` stops
with the fatal `SyntaxError("cannot split into three: ...")`; with
exactly three fields it produces `RefUpdate` whose status is the first
field (necessarily `"ng"`), whose ref name is the second and whose
failure message is the third, staying in `ScanResults`. -/
theorem receive_ng_split_three (bp : List Nat)
    (h : (strBytes "ng ").isPrefixOf bp = true) :
    ((splitNSpace 3 (trimNl bp)).length < 3 →
      receiveStep .scanResult (.bytes bp) =
        .fatal (.syntaxError (strBytes "cannot split into three: " ++ trimNl bp))) ∧
    (∀ f1 f2 f3, splitNSpace 3 (trimNl bp) = [f1, f2, f3] →
      f1 = strBytes "ng" ∧
      receiveStep .scanResult (.bytes bp) =
        .chunk { RefUpdateStatus := f1, RefName := f2,
                 RefUpdateFailMessage := f3 } .scanResult) := by
  have hpre : strBytes "ng " <+: bp := List.isPrefixOf_iff_prefix.mp h
  have hpre2 : strBytes "ng " <+: trimNl bp :=
    trimNl_keeps_prefix _ _ hpre (by decide)
  have hng : (strBytes "ng ").isPrefixOf (trimNl bp) = true :=
    List.isPrefixOf_iff_prefix.mpr hpre2
  have hok : (strBytes "ok ").isPrefixOf (trimNl bp) = false :=
    not_ok_of_ng _ hpre2
  constructor
  · intro hlen
    simp only [receiveStep, hok, hng, Bool.false_eq_true, if_false, if_true]
    rw [if_pos (by omega)]
  · intro f1 f2 f3 hsplit
    have hf1 : f1 = strBytes "ng" := by
      obtain ⟨t, ht⟩ := hpre2
      rw [← ht, splitNSpace_ng] at hsplit
      exact (List.cons_eq_cons.mp hsplit).1.symm
    refine ⟨hf1, ?_⟩
    simp only [receiveStep, hok, hng, Bool.false_eq_true, if_false, if_true]
    rw [if_neg (by rw [hsplit]; simp), hsplit]
    simp [List.getD]

/-- Witness for C6 at the claim's own example, the packet
`"ng refs/heads/main"` (a missing failure-message field): the split
yields two fields and `Scan` raises the fatal syntax error. -/
theorem receive_ng_split_three_witness :
    receiveStep .scanResult (.bytes (strBytes "ng refs/heads/main")) =
      .fatal (.syntaxError
        (strBytes "cannot split into three: " ++ trimNl (strBytes "ng refs/heads/main"))) :=
  (receive_ng_split_three (strBytes "ng refs/heads/main") (by decide)).1 (by decide)

/-! ### Helper lemmas about the scanner -/

theorem runAux_err (f : Nat) (s : ScannerState) (h : s.err.isSome = true) :
    runAux f s = ⟨[], [], s.err, false⟩ := by
  cases f with
  | zero => rfl
  | succ f =>
    unfold runAux
    rw [if_pos h]

theorem runAux_stopErr (f : Nat) (s : ScannerState) (adv : Nat) (t : List Nat)
    (e : PktError) (herr : s.err = none)
    (hsplit : packetSplitFunc s.packFileMode s.data = .tok adv t)
    (hclass : scanClassify s.packFileMode t = .stopErr e) :
    runAux (f + 1) s = ⟨[], [(s.packFileMode, t)], some e, false⟩ := by
  conv_lhs => rw [runAux]
  rw [herr, if_neg (by simp), hsplit]
  show (match scanClassify s.packFileMode t with
    | ScanAct.emit p m2 =>
      let r := runAux f ⟨none, m2, s.data.drop adv⟩
      (⟨p :: r.packets, (s.packFileMode, t) :: r.tokens, r.err, r.oob⟩ : RunResult)
    | .stopClean => ⟨[], [(s.packFileMode, t)], none, false⟩
    | .stopErr e => ⟨[], [(s.packFileMode, t)], some e, false⟩
    | .stopOob => ⟨[], [(s.packFileMode, t)], none, true⟩) = _
  rw [hclass]

theorem runAux_fail (f : Nat) (s : ScannerState) (e : PktError)
    (herr : s.err = none)
    (hsplit : packetSplitFunc s.packFileMode s.data = .fail e) :
    runAux (f + 1) s = ⟨[], [], some e, false⟩ := by
  unfold runAux
  rw [herr]
  rw [if_neg (by simp), hsplit]

theorem scanClassify_err (t : List Nat) (h8 : 8 ≤ t.length)
    (ht : (t.drop 4).take 4 = strBytes "ERR ") :
    scanClassify false t = .stopErr (.remoteError (t.drop 8)) := by
  unfold scanClassify
  rw [if_neg (by simp)]
  rw [if_neg (by intro he; rw [he] at h8; exact absurd h8 (by decide))]
  rw [if_neg (by intro he; rw [he] at h8; exact absurd h8 (by decide))]
  rw [if_neg (by intro he; rw [he] at h8; exact absurd h8 (by decide))]
  rw [if_neg (by omega)]
  rw [if_neg (by intro hc; omega)]
  rw [if_pos ht]

theorem scanClassify_unknown (t : List Nat) (h4 : t.length = 4)
    (h0 : t ≠ strBytes "0000") (h1 : t ≠ strBytes "0001")
    (hP : t ≠ strBytes "PACK") :
    scanClassify false t =
      .stopErr (.syntaxError (strBytes "unknown special packet: " ++ t)) := by
  unfold scanClassify
  rw [if_neg (by simp), if_neg h0, if_neg h1, if_neg hP, if_pos h4]

theorem packetSplitFunc_framed_tok_len (data : List Nat) (adv : Nat)
    (t : List Nat) (h : packetSplitFunc false data = .tok adv t) :
    2 ≤ t.length := by
  unfold packetSplitFunc at h
  rw [if_neg (by simp)] at h
  by_cases h4 : data.length < 4
  · rw [if_pos h4] at h
    exact absurd h (by simp)
  · rw [if_neg h4] at h
    by_cases hP : (strBytes "PACK").isPrefixOf data = true
    · rw [if_pos hP] at h
      injection h with _ h2
      rw [← h2, List.length_take]
      omega
    · rw [if_neg hP] at h
      rcases hparse : parseHex4 (data.take 4) with _ | sz
      all_goals rw [hparse] at h
      · exact absurd h (by simp)
      · have h2 : (if sz = 0 ∨ sz = 1 then SplitRes.tok 4 (data.take 4)
            else if data.length < sz then SplitRes.done
            else SplitRes.tok sz (data.take sz)) = SplitRes.tok adv t := h
        by_cases h01 : sz = 0 ∨ sz = 1
        · rw [if_pos h01] at h2
          injection h2 with _ hh
          rw [← hh, List.length_take]
          omega
        · rw [if_neg h01] at h2
          by_cases hlt : data.length < sz
          · rw [if_pos hlt] at h2
            exact absurd h2 (by simp)
          · rw [if_neg hlt] at h2
            injection h2 with _ hh
            rw [← hh, List.length_take]
            omega

/-- C4.  A framed packet whose payload begins with the four literal bytes
`"ERR "` makes the tokenizer stop: no packet is produced, the scanner's
error is the remote `ErrorPacket` carrying exactly the payload bytes
after those four, and — since the error field stays set — every
subsequent `Scan` call returns `false` as well (a run from any state with
the error set produces nothing and keeps the error). -/
theorem scanner_err_payload_remote_error (payload rest : List Nat)
    (hpre : (strBytes "ERR ").isPrefixOf payload = true)
    (hlen : payload.length + 4 ≤ 65535) :
    tokenize (hex4L (payload.length + 4) ++ payload ++ rest) =
      ⟨[], [(false, hex4L (payload.length + 4) ++ payload)],
       some (.remoteError (payload.drop 4)), false⟩ ∧
    (∀ f s, s.err.isSome = true → runAux f s = ⟨[], [], s.err, false⟩) := by
  have hp4 : 4 ≤ payload.length := by
    have hle := (List.isPrefixOf_iff_prefix.mp hpre).length_le
    have h4 : (strBytes "ERR ").length = 4 := by decide
    omega
  set n := payload.length + 4 with hn
  have hhl : (hex4L n).length = 4 := hex4L_length n
  have hpl : (hex4L n ++ payload).length = n := by
    rw [List.length_append, hhl]
    omega
  have hdl : (hex4L n ++ payload ++ rest).length = n + rest.length := by
    rw [List.length_append, hpl]
  have htake4 : (hex4L n ++ payload ++ rest).take 4 = hex4L n := by
    rw [List.append_assoc]
    exact List.take_left' hhl
  have hnlt : n < 65536 := by omega
  have hsplit : packetSplitFunc false (hex4L n ++ payload ++ rest) =
      .tok n (hex4L n ++ payload) := by
    unfold packetSplitFunc
    rw [if_neg (by simp)]
    rw [if_neg (by rw [hdl]; omega)]
    have hpackF : ¬ ((strBytes "PACK").isPrefixOf (hex4L n ++ payload ++ rest) = true) := by
      intro hb
      have hp := List.prefix_iff_eq_take.mp (List.isPrefixOf_iff_prefix.mp hb)
      rw [show (strBytes "PACK").length = 4 from by decide, htake4] at hp
      exact hex4L_ne_PACK n hnlt hp.symm
    rw [if_neg hpackF, htake4, parseHex4_hex4L n hnlt]
    show (if n = 0 ∨ n = 1 then SplitRes.tok 4 ((hex4L n ++ payload ++ rest).take 4)
      else if (hex4L n ++ payload ++ rest).length < n then SplitRes.done
      else SplitRes.tok n ((hex4L n ++ payload ++ rest).take n)) = _
    rw [if_neg (by omega), if_neg (by rw [hdl]; omega), List.take_left' hpl]
  have hdrop4 : (hex4L n ++ payload).drop 4 = payload := List.drop_left' hhl
  have herr4 : payload.take 4 = strBytes "ERR " := by
    have hp := List.prefix_iff_eq_take.mp (List.isPrefixOf_iff_prefix.mp hpre)
    rw [show (strBytes "ERR ").length = 4 from by decide] at hp
    exact hp.symm
  have hdrop8 : (hex4L n ++ payload).drop 8 = payload.drop 4 := by
    rw [show (8 : Nat) = 4 + 4 from rfl, ← List.drop_drop, hdrop4]
  have hclass : scanClassify false (hex4L n ++ payload) =
      .stopErr (.remoteError (payload.drop 4)) := by
    rw [← hdrop8]
    refine scanClassify_err _ (by rw [hpl]; omega) ?_
    rw [hdrop4, herr4]
  refine ⟨?_, runAux_err⟩
  show runAux ((hex4L n ++ payload ++ rest).length + 1) ⟨none, false, _⟩ = _
  exact runAux_stopErr _ _ _ _ _ rfl hsplit hclass

/-- Witness for C4 at the claim's own example: the packet
`"0014ERR bad request\n"` stops the scanner with a remote error whose
message is `"bad request\n"`. -/
theorem scanner_err_payload_remote_error_witness :
    (strBytes "ERR ").isPrefixOf (strBytes "ERR bad request\x0a") = true ∧
    tokenize (hex4L ((strBytes "ERR bad request\x0a").length + 4) ++
        strBytes "ERR bad request\x0a" ++ []) =
      ⟨[], [(false, hex4L ((strBytes "ERR bad request\x0a").length + 4) ++
        strBytes "ERR bad request\x0a")],
       some (.remoteError ((strBytes "ERR bad request\x0a").drop 4)), false⟩ :=
  ⟨by decide,
   (scanner_err_payload_remote_error (strBytes "ERR bad request\x0a") []
     (by decide) (by decide)).1⟩

/-- C5 amended.  A delivered four-byte framed token that is not
`"0000"`, `"0001"` or `"PACK"` stops the scanner with
`SyntaxError("unknown special packet: " + token)` (a message beginning
`"unknown special packet"`).  Four header bytes that are NOT valid
hexadecimal, however, never become a token at all: the split function
returns the `strconv.ParseUint` error, the scanner stores that error
verbatim, and it is not a `SyntaxError`. -/
theorem unknown_special_packet_amended :
    (∀ f data adv t, packetSplitFunc false data = .tok adv t → t.length = 4 →
      t ≠ strBytes "0000" → t ≠ strBytes "0001" → t ≠ strBytes "PACK" →
      runAux (f + 1) ⟨none, false, data⟩ =
        ⟨[], [(false, t)],
         some (.syntaxError (strBytes "unknown special packet: " ++ t)), false⟩) ∧
    (∀ f data, 4 ≤ data.length → (strBytes "PACK").isPrefixOf data = false →
      parseHex4 (data.take 4) = none →
      runAux (f + 1) ⟨none, false, data⟩ =
        ⟨[], [], some (.numError (data.take 4)), false⟩ ∧
      ∀ m, (PktError.numError (data.take 4)) ≠ PktError.syntaxError m) := by
  constructor
  · intro f data adv t hsplit h4 h0 h1 hP
    exact runAux_stopErr f ⟨none, false, data⟩ adv t _ rfl hsplit
      (scanClassify_unknown t h4 h0 h1 hP)
  · intro f data hlen hpack hparse
    have hsplit : packetSplitFunc false data = .fail (.numError (data.take 4)) := by
      unfold packetSplitFunc
      rw [if_neg (by simp), if_neg (by omega), if_neg (by simp [hpack]), hparse]
    refine ⟨runAux_fail f ⟨none, false, data⟩ _ rfl hsplit, ?_⟩
    intro m hm
    exact PktError.noConfusion hm

/-- Witness for the C5 amended theorem: the token `"0004"` (valid
hexadecimal, value 4) yields the "unknown special packet" syntax error;
the header `"zzzz"` (not hexadecimal) yields the number-parse error. -/
theorem unknown_special_packet_amended_witness :
    runAux 5 ⟨none, false, strBytes "0004"⟩ =
      ⟨[], [(false, strBytes "0004")],
       some (.syntaxError (strBytes "unknown special packet: " ++ strBytes "0004")),
       false⟩ ∧
    runAux 5 ⟨none, false, strBytes "zzzz"⟩ =
      ⟨[], [], some (.numError ((strBytes "zzzz").take 4)), false⟩ :=
  ⟨unknown_special_packet_amended.1 4 (strBytes "0004") 4 (strBytes "0004")
     (by decide) (by decide) (by decide) (by decide) (by decide),
   (unknown_special_packet_amended.2 4 (strBytes "zzzz")
     (by decide) (by decide) (by decide)).1⟩

/-- C10 amended.  Framed-mode tokens with length different from 4 are
NOT all of length at least 8: they are only guaranteed length at least 2,
and header values 2, 3, 5, 6 and 7 deliver tokens of exactly that length,
for which `Scan`'s slice expressions `bs[4:8]` / `bs[8:]` reach past the
end of the delivered token — on the input `"0002"` the two-byte token
`"00"` is delivered and the run ends in the out-of-bounds outcome. -/
theorem token_length_amended :
    (∀ f s, ∀ mt ∈ (runAux f s).tokens, mt.1 = false → 2 ≤ mt.2.length) ∧
    (tokenize (strBytes "0002")).tokens = [(false, strBytes "00")] ∧
    (tokenize (strBytes "0002")).oob = true := by
  refine ⟨?_, by decide, by decide⟩
  intro f
  induction f with
  | zero =>
    intro s mt hmt
    simp [runAux] at hmt
  | succ f ih =>
    intro s mt hmt hfalse
    rw [runAux] at hmt
    by_cases herr : s.err.isSome = true
    · rw [if_pos herr] at hmt
      simp at hmt
    · rw [if_neg herr] at hmt
      rcases hsplit : packetSplitFunc s.packFileMode s.data with ⟨adv, t⟩ | _ | e
      all_goals rw [hsplit] at hmt
      · dsimp only at hmt
        rcases hclass : scanClassify s.packFileMode t with ⟨p, m2⟩ | _ | e | _
        all_goals rw [hclass] at hmt
        · have hmt3 : mt = (s.packFileMode, t) ∨
              mt ∈ (runAux f ⟨none, m2, s.data.drop adv⟩).tokens := by
            simpa using hmt
          rcases hmt3 with rfl | hmt3
          · have hm : s.packFileMode = false := hfalse
            rw [hm] at hsplit
            exact packetSplitFunc_framed_tok_len _ _ _ hsplit
          · exact ih _ _ hmt3 hfalse
        · have hmt3 : mt = (s.packFileMode, t) := by
            simpa using hmt
          subst hmt3
          have hm : s.packFileMode = false := hfalse
          rw [hm] at hsplit
          exact packetSplitFunc_framed_tok_len _ _ _ hsplit
        · have hmt3 : mt = (s.packFileMode, t) := by
            simpa using hmt
          subst hmt3
          have hm : s.packFileMode = false := hfalse
          rw [hm] at hsplit
          exact packetSplitFunc_framed_tok_len _ _ _ hsplit
        · have hmt3 : mt = (s.packFileMode, t) := by
            simpa using hmt
          subst hmt3
          have hm : s.packFileMode = false := hfalse
          rw [hm] at hsplit
          exact packetSplitFunc_framed_tok_len _ _ _ hsplit
      · simp at hmt
      · simp at hmt

/-- Witness for the C10 amended theorem: the framed token `"00"`
delivered on input `"0002"` has length 2. -/
theorem token_length_amended_witness :
    (false, strBytes "00") ∈ (runAux 5 ⟨none, false, strBytes "0002"⟩).tokens ∧
    2 ≤ (strBytes "00").length :=
  ⟨by decide,
   token_length_amended.1 5 ⟨none, false, strBytes "0002"⟩ (false, strBytes "00")
     (by decide) rfl⟩

/-- C1.  The decode / re-encode / decode round-trip FAILS on the code: the
receive-pack response stream `"000eunpack ok\n000ang a \n0000"` parses
cleanly into three chunks, `RefUpdate("ng", "a", "")` among them (the
`"ng a "` line splits into exactly three fields, the third empty); each
chunk re-encodes without panicking, but the re-encoded middle chunk drops
the empty failure-message field, producing `"0009ng a\n"`, and re-parsing
the concatenation stops after one chunk with
`SyntaxError("cannot split into three: ng a")` instead of reproducing the
chunk sequence.  This theorem evaluates both parses and the re-encoding at
that failing input. -/
theorem receiveRoundTrip_fails_on_empty_ng_failmessage :
    receiveRunBytes (strBytes "000eunpack ok\x0a000ang a \x0a0000") =
      ([{ UnpackStatus := strBytes "ok" },
        { RefUpdateStatus := strBytes "ng", RefName := strBytes "a" },
        { EndOfResponse := true }], none) ∧
    ([{ UnpackStatus := strBytes "ok" },
      { RefUpdateStatus := strBytes "ng", RefName := strBytes "a" },
      { EndOfResponse := true }] : List ReceiveResponseChunk).map
        encodeReceiveResponseChunk =
      [some (strBytes "000eunpack ok\x0a"), some (strBytes "0009ng a\x0a"),
       some (strBytes "0000")] ∧
    receiveRunBytes (strBytes "000eunpack ok\x0a" ++ strBytes "0009ng a\x0a" ++
        strBytes "0000") =
      ([{ UnpackStatus := strBytes "ok" }],
       some (.syntaxError (strBytes "cannot split into three: ng a"))) := by
  refine ⟨by decide, by decide, by decide⟩

/-- C2.  When the packet tokenizer stops with a non-nil error,
`UploadResponse.Scan` returns `false` but `Err()` does NOT return that
error: the `Scan` code only assigns `r.err` when `r.scanner.Err()` is nil
(the "early EOF" refinement), so the scanner's error is silently dropped
— contradicting both the claim and `Scan`'s own doc comment.  Evaluated
at the stream `"0004"`, whose tokenization stops with
`SyntaxError("unknown special packet: 0004")` while the upload-pack
parser reports no error at all. -/
theorem uploadResponse_drops_scanner_error :
    (tokenize (strBytes "0004")).err =
      some (.syntaxError (strBytes "unknown special packet: 0004")) ∧
    uploadRunBytes (strBytes "0004") = ([], none) := by
  refine ⟨by decide, by decide⟩

/-- C7.  Over the packet sequence `[Bytes "NAK\n", Bytes packBytes, Flush]`
with the shallow, unshallow and ACK sections entirely absent, the
upload-pack response parser produces exactly `Nak`,
`PackStreamBytes(packBytes)`, `EndOfRequest` — for every byte sequence
`packBytes` — and stops with no error. -/
theorem upload_nak_pack_flush_chunks (pb : List Nat) :
    uploadRun .begin [.bytes (strBytes "NAK\x0a"), .bytes pb, .flush] none =
      ([{ Nak := true }, { PackStream := pb }, { EndOfRequest := true }], none) := by
  rfl

/-- C8.  For the receive-pack response parser and the v2 request parser, a
clean end of stream (scanner stops, scanner error nil) while the state is
`Begin` yields `Scan = false` with `Err() = nil`; a clean end in any
other non-terminal state yields `SyntaxError("early EOF")`. -/
theorem clean_eof_begin_vs_midstream :
    receiveRun .begin [] none = ([], none) ∧
    receiveRun .scanResult [] none =
      ([], some (.syntaxError (strBytes "early EOF"))) ∧
    requestRun .begin [] none = ([], none) ∧
    requestRun .scanCapabilities [] none =
      ([], some (.syntaxError (strBytes "early EOF"))) ∧
    requestRun .scanArguments [] none =
      ([], some (.syntaxError (strBytes "early EOF"))) := by
  refine ⟨by decide, by decide, by decide, by decide, by decide⟩

/-- C9.  Consuming a `PackFileIndicatorPacket` in the pack section returns
`true` from `UploadResponse.Scan` without touching the current chunk:
the parser state stays `ScanPacks`, the error field stays nil, and
`Chunk()` keeps exposing exactly the chunk of the previous successful
`Scan`, whatever it was. -/
theorem indicator_preserves_current_chunk (curr : Option UploadResponseChunk)
    (ps : List Packet) (e : Option PktError) :
    uploadScanOnce ⟨.scanPacks, none, curr⟩ (.packFileIndicator :: ps) e =
      (true, ⟨.scanPacks, none, curr⟩, ps) := by
  rfl

/-- C5 counterexample.  Four header bytes that are not valid hexadecimal
(`"zzzz"`) do stop the scanner, but the resulting error is the
`strconv.ParseUint` error returned by the split function — not a
`SyntaxError` as the claim states. -/
theorem nonhex_header_not_syntax_error : ¬ c5ClaimAt (strBytes "zzzz") := by
  unfold c5ClaimAt
  decide

/-- C10 counterexample.  The input `"0002"` (header value 2) makes
`packetSplitFunc` deliver the two-byte framed token `"00"` to `Scan`:
a token with length different from 4 and far below 8, refuting the
claimed lower bound. -/
theorem token_length_claim_fails : ¬ c10ClaimAt (strBytes "0002") := by
  unfold c10ClaimAt
  decide

example : splitNSpace 3 (strBytes "ng a ") =
    [strBytes "ng", strBytes "a", []] := by decide
example : splitNSpace 3 (strBytes "ng refs/heads/main") =
    [strBytes "ng", strBytes "refs/heads/main"] := by decide
example : splitNSpace 2 (strBytes "unpack ok") =
    [strBytes "unpack", strBytes "ok"] := by decide

example :
    receiveRunBytes (strBytes "000eunpack ok\x0a0017ok refs/heads/main\x0a0000") =
      ([{ UnpackStatus := strBytes "ok" },
        { RefUpdateStatus := strBytes "ok", RefName := strBytes "refs/heads/main" },
        { EndOfResponse := true }], none) := by decide

example :
    requestRun .begin
      [.bytes (strBytes "command=ls-refs\x0a"), .bytes (strBytes "agent=x\x0a"),
       .delim, .bytes (strBytes "peel\x0a"), .flush] none =
    ([{ Command := strBytes "ls-refs" }, { Capability := strBytes "agent=x" },
      { EndCapability := true }, { Argument := strBytes "peel\x0a" },
      { EndArgument := true }], none) := by decide

example :
    uploadRun .begin
      [.bytes (strBytes "shallow a1\x0a"), .bytes (strBytes "unshallow b2\x0a"),
       .flush, .bytes (strBytes "ACK c3 continue\x0a"), .bytes (strBytes "NAK\x0a"),
       .bytes (strBytes "pkbytes"), .flush] none =
    ([{ ShallowObjectID := strBytes "a1" }, { UnshallowObjectID := strBytes "b2" },
      { EndOfShallows := true },
      { AckObjectID := strBytes "c3", AckDetail := strBytes "continue" },
      { Nak := true }, { PackStream := strBytes "pkbytes" },
      { EndOfRequest := true }], none) := by decide

example :
    uploadRunBytes (strBytes "0008NAK\x0aPACKrawdata0000") =
    ([{ Nak := true }, { PackStream := strBytes "rawdata0000" }], none) := by decide

end PktLine
